import Mathlib

/-!
Verification development for the agent-based climate model of
`climate_abm_with_uncertainties.py` (and its twin `enhanced_climate_abm.py`).

The Python classes are embedded shallowly:
* `Agent` / `ClimateModel` become structures over `ℚ` (Python floats are
  modelled as exact rationals; every literal such as `0.1` or `0.0000015`
  is taken at its decimal value).
* Mutation becomes explicit state passing: `Agent.decide_adoption` returns
  the decision together with the updated agent, `ClimateModel.step` returns
  the result quadruple together with the updated model.
* Randomness is externalised: the stream of `np.random.random()` draws is a
  function `us : ℕ → ℚ` together with a cursor that advances exactly when
  the Python code consumes a draw.
* Python's `ZeroDivisionError` and `TypeError` are modelled by `Option`:
  `none` is a raised exception. Neighbour references (Python object
  handles) are modelled as indices into the model's agent list.
-/

/-- The two values of the Python `type` attribute of `Agent`. -/
inductive AgentKind where
  | household
  | firm
deriving DecidableEq

/-- Embedding of the Python `Agent` object state. `location` is the `(x, y)`
pair; `neighbors` holds indices into the owning model's agent list (the
Python code stores direct object references). -/
structure Agent where
  id : ℕ
  type : AgentKind
  wealth : ℚ
  environmental_awareness : ℚ
  has_renewables : Bool
  energy_cost : ℚ
  location : ℚ × ℚ
  neighbors : List ℕ
  annual_emissions : ℚ
deriving DecidableEq

/-- Python true division that raises `ZeroDivisionError` on a zero divisor. -/
def pydiv (a b : ℚ) : Option ℚ :=
  if b = 0 then none else some (a / b)

/-- Embedding of `Agent.decide_adoption`.  `flags` is the list of
`has_renewables` values of this agent's neighbours, read (as the Python code
does through object references) from the current, partially updated
population.  `us j` is the `np.random.random()` draw; the returned cursor is
`j + 1` exactly when the Python code consumes a draw.  The division by
`fossil_cost` raises (`none`) when `fossil_cost = 0`, as Python float
division does. -/
def Agent.decide_adoption (a : Agent) (flags : List Bool)
    (renewable_cost fossil_cost global_temperature policy_incentive : ℚ)
    (us : ℕ → ℚ) (j : ℕ) : Option (Bool × Agent × ℕ) :=
  if a.has_renewables then some (false, a, j)
  else if fossil_cost = 0 then none
  else
    let base_cost_difference :=
      (fossil_cost - renewable_cost + policy_incentive) / fossil_cost
    let neighbor_adoption_rate :=
      ((flags.countP (fun b => b) : ℕ) : ℚ) / ((max flags.length 1 : ℕ) : ℚ)
    let social_influence := (3 / 10 : ℚ) * neighbor_adoption_rate
    let local_temp_impact :=
      global_temperature * (1 + (2 / 10 : ℚ) * |a.location.2| / 90)
    let environmental_factor := a.environmental_awareness * local_temp_impact
    let adoption_probability :=
      (1 / 10 : ℚ) * (base_cost_difference + social_influence + environmental_factor)
    let annual_payment := renewable_cost / 10
    let adoption_probability :=
      if a.wealth < renewable_cost ∧ a.wealth < annual_payment * 2 then
        adoption_probability * (1 / 10)
      else adoption_probability
    if us j < max 0 (min 1 adoption_probability) then
      some (true,
        { a with
          has_renewables := true
          energy_cost := renewable_cost / 10
          annual_emissions := a.annual_emissions * (1 / 10) }, j + 1)
    else
      some (false, a, j + 1)

/-- The adoption probability exactly as the specification words it:
`0.1 × (economic + 0.3 × neighbour fraction + awareness × temperature ×
(1 + 0.2·|y|/90))`, with the neighbour fraction defined as `0` for an empty
neighbour list, and the whole probability multiplied by `0.1` when
`wealth < renewable_cost` and `wealth < 2 × (renewable_cost / 10)`.
Written from the spec's words, for comparison with `Agent.decide_adoption`. -/
def specAdoptionProb (a : Agent) (flags : List Bool)
    (renewable_cost fossil_cost global_temperature policy_incentive : ℚ) : ℚ :=
  let frac : ℚ :=
    if flags.length = 0 then 0
    else ((flags.countP (fun b => b) : ℕ) : ℚ) / ((flags.length : ℕ) : ℚ)
  let p :=
    (1 / 10 : ℚ) *
      ((fossil_cost - renewable_cost + policy_incentive) / fossil_cost +
        (3 / 10 : ℚ) * frac +
        a.environmental_awareness * global_temperature *
          (1 + (2 / 10 : ℚ) * |a.location.2| / 90))
  if a.wealth < renewable_cost ∧ a.wealth < 2 * (renewable_cost / 10) then
    p * (1 / 10)
  else p

/-- Embedding of the Python `ClimateModel` global state. -/
structure ClimateModel where
  agents : List Agent
  temperature : ℚ
  year : ℤ
  cumulative_emissions : ℚ
  carbon_price : ℚ
deriving DecidableEq

/-- Embedding of `ClimateModel.calculate_carbon_price` (a pure state update:
Python mutates `self.carbon_price` in place). -/
def ClimateModel.calculate_carbon_price (m : ClimateModel) : ClimateModel :=
  let base_price : ℚ := 30
  let temp_multiplier := max 1 (m.temperature ^ 2)
  let emission_multiplier := min 2 (m.cumulative_emissions / 1000000)
  { m with carbon_price := base_price * temp_multiplier * emission_multiplier }

/-- The agent loop of `ClimateModel.step`, as a zipper over the agent list:
`done` are the already-processed (possibly updated) agents, `rest` the
remaining ones.  Each agent's neighbour flags are read from the current
population `done ++ a :: rest`, exactly as the in-place Python loop reads
partially updated objects; the emissions tally adds the agent's
`annual_emissions` after its own `decide_adoption` call, as the Python
statement order does. -/
def stepAgentsGo (renewable_cost fossil_cost temp policy_incentive : ℚ)
    (us : ℕ → ℚ) :
    List Agent → List Agent → ℕ → ℚ → ℕ → Option (ℕ × ℚ × List Agent × ℕ)
  | done, [], new_adoptions, total_emissions, j =>
      some (new_adoptions, total_emissions, done, j)
  | done, a :: rest, new_adoptions, total_emissions, j => do
      let current := done ++ a :: rest
      let flags := a.neighbors.map
        (fun idx => (((current.get? idx).map Agent.has_renewables).getD false))
      let r ← a.decide_adoption flags renewable_cost fossil_cost temp
        policy_incentive us j
      stepAgentsGo renewable_cost fossil_cost temp policy_incentive us
        (done ++ [r.2.1]) rest
        (if r.1 then new_adoptions + 1 else new_adoptions)
        (total_emissions + r.2.1.annual_emissions) r.2.2

/-- Comparison of two `(distance, agent)` pairs as Python's tuple `<` does
during `sorted(distances)`: distances are compared first; on a tie Python
falls through to comparing the `Agent` objects, which define no ordering, so
a `TypeError` is raised (`none`). The agent component is modelled by its
index in the population. -/
def pyPairLt (x y : ℚ × ℕ) : Option Bool :=
  if x.1 < y.1 then some true
  else if y.1 < x.1 then some false
  else none

/-- Insertion of a pair into an already sorted list, using the fallible
Python tuple comparison; models the comparisons `sorted` performs. -/
def pyInsert (x : ℚ × ℕ) : List (ℚ × ℕ) → Option (List (ℚ × ℕ))
  | [] => some [x]
  | y :: ys => do
      let b ← pyPairLt x y
      if b then some (x :: y :: ys)
      else do
        let t ← pyInsert x ys
        some (y :: t)

/-- Model of Python's `sorted` on the `(distance, agent)` tuples: an
insertion sort over the fallible comparison.  On distinct keys it agrees
with `sorted` (the strictly ascending rearrangement); a tie between two
keys makes two incomparable tuples meet, raising `TypeError` (`none`), as
CPython does. -/
def pySort : List (ℚ × ℕ) → Option (List (ℚ × ℕ))
  | [] => some []
  | x :: xs => do
      let t ← pySort xs
      pyInsert x t

/-- The squared Euclidean distance between two locations.  The Python code
sorts by `np.sqrt` of this value; since `Real.sqrt` is strictly monotone on
nonnegative inputs, sorting (and tying) by the square is equivalent, and it
keeps the embedding inside `ℚ`. -/
def sqDist (p q : ℚ × ℚ) : ℚ :=
  (p.1 - q.1) ^ 2 + (p.2 - q.2) ^ 2

/-- The `distances` list built for the agent at index `i`: one
`(distance, other)` pair per other agent, in population order.  The Python
`other != agent` test is object identity, i.e. index inequality here. -/
def distPairs (agents : List Agent) (i : ℕ) (a : Agent) : List (ℚ × ℕ) :=
  (agents.enum.filter (fun p => p.1 ≠ i)).map
    (fun p => (sqDist a.location p.2.location, p.1))

/-- The neighbour list computed for the agent at index `i`:
`sorted(distances)[:10]`, keeping the agent (index) components. -/
def neighborsFor (agents : List Agent) (i : ℕ) (a : Agent) : Option (List ℕ) := do
  let s ← pySort (distPairs agents i a)
  some ((s.take 10).map Prod.snd)

/-- The per-agent loop of `_establish_neighbor_networks` over the
enumerated population.  The neighbour computation reads only locations
(never mutated), so updating agents one by one is order-independent. -/
def establishGo (agents : List Agent) : List (ℕ × Agent) → Option (List Agent)
  | [] => some []
  | p :: ps => do
      let ns ← neighborsFor agents p.1 p.2
      let rest ← establishGo agents ps
      some ({ p.2 with neighbors := ns } :: rest)

/-- Embedding of `ClimateModel._establish_neighbor_networks`. -/
def establishNeighborNetworks (agents : List Agent) : Option (List Agent) :=
  establishGo agents agents.enum

/-- The three fixed city centres of `ClimateModel.__init__`. -/
def cityCenters : List (ℚ × ℚ) := [(30, 30), (-30, 30), (0, -30)]

/-- The random draws consumed when creating one household: the city-centre
index (`np.random.randint(0, 3)`), the two location offsets, the wealth and
the awareness. -/
structure HouseholdDraw where
  center : Fin 3
  dx : ℚ
  dy : ℚ
  wealth : ℚ
  awareness : ℚ

/-- The random draws consumed when creating one firm: the two uniform
location coordinates, the wealth and the awareness. -/
structure FirmDraw where
  x : ℚ
  y : ℚ
  wealth : ℚ
  awareness : ℚ

/-- One household agent as `ClimateModel.__init__` builds it. -/
def mkHousehold (i : ℕ) (d : HouseholdDraw) : Agent :=
  let c := cityCenters.getD d.center.val (0, 0)
  { id := i
    type := AgentKind.household
    wealth := d.wealth
    environmental_awareness := d.awareness
    has_renewables := false
    energy_cost := 0
    location := (c.1 + d.dx, c.2 + d.dy)
    neighbors := []
    annual_emissions := 20 }

/-- One firm agent as `ClimateModel.__init__` builds it. -/
def mkFirm (n_households i : ℕ) (d : FirmDraw) : Agent :=
  { id := i + n_households
    type := AgentKind.firm
    wealth := d.wealth
    environmental_awareness := d.awareness
    has_renewables := false
    energy_cost := 0
    location := (d.x, d.y)
    neighbors := []
    annual_emissions := 200 }

/-- Embedding of `ClimateModel.__init__`, with the random draws
externalised.  The constructor performs no validation whatsoever of the
population sizes: it only builds the agents and the neighbour network.  The
only possible failure (`none`) is the `TypeError` that the neighbour sort
raises on tied distances. -/
def ClimateModel.init (n_households n_firms : ℕ)
    (hd : ℕ → HouseholdDraw) (fd : ℕ → FirmDraw) : Option ClimateModel := do
  let households := (List.range n_households).map (fun i => mkHousehold i (hd i))
  let firms := (List.range n_firms).map (fun i => mkFirm n_households i (fd i))
  let agents ← establishNeighborNetworks (households ++ firms)
  some { agents := agents, temperature := 1, year := 2024,
         cumulative_emissions := 0, carbon_price := 0 }

/-- The quadruple returned by `ClimateModel.step`. -/
structure StepResult where
  new_adoptions : ℕ
  adoption_rate : ℚ
  temperature : ℚ
  total_emissions : ℚ
deriving DecidableEq

/-- Embedding of `ClimateModel.step`.  `none` models a raised exception:
either the division by a zero `fossil_cost + carbon_price` inside an agent's
decision, or the `ZeroDivisionError` of the adoption-rate division when the
population is empty. -/
def ClimateModel.step (m : ClimateModel) (renewable_cost fossil_cost : ℚ)
    (us : ℕ → ℚ) (j : ℕ) : Option (StepResult × ClimateModel × ℕ) := do
  let m := m.calculate_carbon_price
  let fossil_cost := fossil_cost + m.carbon_price
  let policy_incentive := max 0 ((m.temperature - 3 / 2) * 20)
  let r ← stepAgentsGo renewable_cost fossil_cost m.temperature
    policy_incentive us [] m.agents 0 0 j
  let new_adoptions := r.1
  let total_emissions := r.2.1
  let agents := r.2.2.1
  let cumulative_emissions := m.cumulative_emissions + total_emissions
  let adoption_rate ← pydiv
    ((agents.countP (fun a => a.has_renewables) : ℕ) : ℚ)
    ((agents.length : ℕ) : ℚ)
  let temperature := 1 + (3 / 2000000 : ℚ) * cumulative_emissions
  some ({ new_adoptions := new_adoptions, adoption_rate := adoption_rate,
          temperature := temperature, total_emissions := total_emissions },
        { m with
          agents := agents
          temperature := temperature
          cumulative_emissions := cumulative_emissions
          year := m.year + 1 }, r.2.2.2)

/-- The column of a trial-by-year table at year `t` (missing entries read as
`0`; all rows of an actual run share one length, so the default is never
consulted there). -/
def col (rows : List (List ℚ)) (t : ℕ) : List ℚ :=
  rows.map (fun r => r.getD t 0)

/-- `np.mean(rows, axis=0)` at year `t`: the cross-trial mean. -/
def npMeanAxis0 (rows : List (List ℚ)) (t : ℕ) : ℚ :=
  (col rows t).sum / ((rows.length : ℕ) : ℚ)

/-- The cross-trial population variance at year `t` (`np.std` squared;
`np.std` uses `ddof = 0`). -/
def npVarAxis0 (rows : List (List ℚ)) (t : ℕ) : ℚ :=
  ((col rows t).map (fun x => (x - npMeanAxis0 rows t) ^ 2)).sum /
    ((rows.length : ℕ) : ℚ)

/-- `np.std(rows, axis=0)` at year `t`. -/
noncomputable def npStdAxis0 (rows : List (List ℚ)) (t : ℕ) : ℝ :=
  Real.sqrt ((npVarAxis0 rows t : ℚ) : ℝ)

/-- `np.clip(x, 0, None)`. -/
def npClip0 (x : ℝ) : ℝ := max 0 x

/-- `np.clip(x, 0, 1)`. -/
def npClip01 (x : ℝ) : ℝ := min 1 (max 0 x)

/-- The raw lower uncertainty band `mean - 2·std` at year `t`. -/
noncomputable def rawLowerBand (rows : List (List ℚ)) (t : ℕ) : ℝ :=
  ((npMeanAxis0 rows t : ℚ) : ℝ) - 2 * npStdAxis0 rows t

/-- The lower emissions band as `run_monte_carlo_simulation` reports it:
`np.clip(emis_mean - 2 * emis_std, 0, None)`. -/
noncomputable def emisLowerBand (rows : List (List ℚ)) (t : ℕ) : ℝ :=
  npClip0 (rawLowerBand rows t)

/-- The lower adoption-rate band as reported:
`np.clip(adopt_mean - 2 * adopt_std, 0, 1)`. -/
noncomputable def adoptLowerBand (rows : List (List ℚ)) (t : ℕ) : ℝ :=
  npClip01 (rawLowerBand rows t)

/-- The upper adoption-rate band as reported:
`np.clip(adopt_mean + 2 * adopt_std, 0, 1)`. -/
noncomputable def adoptUpperBand (rows : List (List ℚ)) (t : ℕ) : ℝ :=
  npClip01 (((npMeanAxis0 rows t : ℚ) : ℝ) + 2 * npStdAxis0 rows t)

/-- A wealthy, unaware household at the origin with no neighbours; with
`renewable_cost = 0` and `fossil_cost = 80` its adoption probability is
exactly `1/10`, so the draw `0` makes it adopt. -/
def probeAgent : Agent :=
  { id := 0
    type := AgentKind.household
    wealth := 1000
    environmental_awareness := 0
    has_renewables := false
    energy_cost := 0
    location := (0, 0)
    neighbors := []
    annual_emissions := 20 }

/-- A one-agent model in its initial global state. -/
def probeModel : ClimateModel :=
  { agents := [probeAgent]
    temperature := 1
    year := 2024
    cumulative_emissions := 0
    carbon_price := 0 }

/-- The empty-population model that `ClimateModel.init 0 0` produces. -/
def emptyModel : ClimateModel :=
  { agents := []
    temperature := 1
    year := 2024
    cumulative_emissions := 0
    carbon_price := 0 }

lemma countP_div_max_eq (flags : List Bool) :
    (((flags.countP (fun b => b) : ℕ) : ℚ) / ((max flags.length 1 : ℕ) : ℚ)) =
      (if flags.length = 0 then (0 : ℚ)
       else ((flags.countP (fun b => b) : ℕ) : ℚ) / ((flags.length : ℕ) : ℚ)) := by
  cases flags with
  | nil => simp
  | cons f fs => simp [Nat.max_eq_left (Nat.succ_le_succ (Nat.zero_le _))]

lemma decide_adoption_eval (a : Agent) (flags : List Bool)
    (rc fc temp pol : ℚ) (us : ℕ → ℚ) (j : ℕ)
    (hna : a.has_renewables = false) (hfc : fc ≠ 0) :
    a.decide_adoption flags rc fc temp pol us j =
      if us j < max 0 (min 1 (specAdoptionProb a flags rc fc temp pol)) then
        some (true,
          { a with
            has_renewables := true
            energy_cost := rc / 10
            annual_emissions := a.annual_emissions * (1 / 10) }, j + 1)
      else some (false, a, j + 1) := by
  simp only [Agent.decide_adoption, hna, Bool.false_eq_true, if_false, if_neg hfc,
    specAdoptionProb, countP_div_max_eq]
  ring_nf

/-- C3: `has_renewables` is a one-way latch: any `true` return of
`decide_adoption` leaves the flag set, and once the flag is set every
further call returns `false` with the agent (and the random cursor)
completely unchanged — a side-effect-free no-op. -/
theorem adoption_latch :
    (∀ (a : Agent) (flags : List Bool) (rc fc temp pol : ℚ) (us : ℕ → ℚ)
        (j : ℕ) (a' : Agent) (j' : ℕ),
      a.decide_adoption flags rc fc temp pol us j = some (true, a', j') →
      a'.has_renewables = true) ∧
    (∀ (a : Agent) (flags : List Bool) (rc fc temp pol : ℚ) (us : ℕ → ℚ)
        (j : ℕ),
      a.has_renewables = true →
      a.decide_adoption flags rc fc temp pol us j = some (false, a, j)) := by
  constructor
  · intro a flags rc fc temp pol us j a' j' h
    simp only [Agent.decide_adoption] at h
    split at h
    · simp at h
    · split at h
      · simp at h
      · split at h <;> split at h <;>
          simp only [Option.some.injEq, Prod.mk.injEq, true_and] at h
        all_goals (first
          | (exact absurd h.1 Bool.false_ne_true)
          | (rw [← h.1]))
  · intro a flags rc fc temp pol us j h
    simp [Agent.decide_adoption, h]

theorem adoption_latch_witness :
    ({ probeAgent with has_renewables := true } : Agent).has_renewables = true ∧
    Agent.decide_adoption { probeAgent with has_renewables := true }
        [] 0 80 1 0 (fun _ => 0) 0 =
      some (false, { probeAgent with has_renewables := true }, 0) :=
  ⟨rfl, adoption_latch.2 _ [] 0 80 1 0 (fun _ => 0) 0 rfl⟩

/-- C4: for an agent that has not yet adopted, with a nonzero fossil cost,
`decide_adoption` adopts exactly when the uniform draw is below the clamped
probability `clamp(p, 0, 1)` with `p` exactly as the specification words it
(`specAdoptionProb`): `0.1 × (economic + 0.3 × neighbour fraction +
awareness × temperature × (1 + 0.2·|y|/90))`, damped by `0.1` under the
wealth condition, the neighbour fraction being `0` for an empty list. -/
theorem decide_adoption_matches_spec (a : Agent) (flags : List Bool)
    (rc fc temp pol : ℚ) (us : ℕ → ℚ) (j : ℕ)
    (hna : a.has_renewables = false) (hfc : fc ≠ 0) :
    (∃ a' j', a.decide_adoption flags rc fc temp pol us j = some (true, a', j')) ↔
      us j < max 0 (min 1 (specAdoptionProb a flags rc fc temp pol)) := by
  rw [decide_adoption_eval a flags rc fc temp pol us j hna hfc]
  split
  · next h => simpa using h
  · next h => simpa using h

theorem decide_adoption_matches_spec_witness :
    probeAgent.has_renewables = false ∧ (80 : ℚ) ≠ 0 ∧
    ((∃ a' j', probeAgent.decide_adoption [] 0 80 1 0 (fun _ => 0) 0 =
        some (true, a', j')) ↔
      (0 : ℚ) < max 0 (min 1 (specAdoptionProb probeAgent [] 0 80 1 0))) :=
  ⟨rfl, by norm_num,
    decide_adoption_matches_spec probeAgent [] 0 80 1 0 (fun _ => 0) 0 rfl
      (by norm_num)⟩

/-- C2 counterexample: in the initial state (temperature 1 ≥ 0, cumulative
emissions 0 ≥ 0) the computed carbon price is `30 × max(1,1) × min(2,0) = 0`,
strictly below `base_price = 30`: the emissions multiplier has no floor of 1,
so the claimed lower bound `base_price` fails. -/
theorem carbon_price_floor_cex :
    (ClimateModel.calculate_carbon_price probeModel).carbon_price = 0 ∧
    ¬ (30 : ℚ) ≤ (ClimateModel.calculate_carbon_price probeModel).carbon_price := by
  constructor
  · norm_num [ClimateModel.calculate_carbon_price, probeModel]
  · norm_num [ClimateModel.calculate_carbon_price, probeModel]

/-- C2 (amended): for every model state with temperature ≥ 0 and cumulative
emissions ≥ 0, after `calculate_carbon_price` the carbon price lies in
`[0, 2 × base_price × max(1, temperature²)]` with `base_price = 30`; the
emissions multiplier `min(2, cumulative_emissions/1e6)` contributes a factor
of at most 2 but has no floor, so the price can fall below `base_price`
(down to 0), as the counterexample shows. -/
theorem carbon_price_bounds (m : ClimateModel)
    (ht : 0 ≤ m.temperature) (hc : 0 ≤ m.cumulative_emissions) :
    0 ≤ (ClimateModel.calculate_carbon_price m).carbon_price ∧
    (ClimateModel.calculate_carbon_price m).carbon_price ≤
      2 * 30 * max 1 (m.temperature ^ 2) := by
  have h1 : (0 : ℚ) ≤ max 1 (m.temperature ^ 2) :=
    le_trans zero_le_one (le_max_left _ _)
  have h2 : (0 : ℚ) ≤ min 2 (m.cumulative_emissions / 1000000) :=
    le_min (by norm_num) (by positivity)
  have h3 : min 2 (m.cumulative_emissions / 1000000) ≤ 2 := min_le_left _ _
  constructor
  · exact mul_nonneg (mul_nonneg (by norm_num) h1) h2
  · calc 30 * max 1 (m.temperature ^ 2) * min 2 (m.cumulative_emissions / 1000000)
        ≤ 30 * max 1 (m.temperature ^ 2) * 2 := by nlinarith
      _ = 2 * 30 * max 1 (m.temperature ^ 2) := by ring

theorem carbon_price_bounds_witness :
    (0 : ℚ) ≤ probeModel.temperature ∧
    (0 : ℚ) ≤ probeModel.cumulative_emissions ∧
    (0 ≤ (ClimateModel.calculate_carbon_price probeModel).carbon_price ∧
      (ClimateModel.calculate_carbon_price probeModel).carbon_price ≤
        2 * 30 * max 1 (probeModel.temperature ^ 2)) :=
  ⟨by norm_num [probeModel], by norm_num [probeModel],
    carbon_price_bounds probeModel (by norm_num [probeModel])
      (by norm_num [probeModel])⟩

lemma stepAgentsGo_spec (rc fc temp pol : ℚ) (us : ℕ → ℚ) :
    ∀ (rest done : List Agent) (nA : ℕ) (tE : ℚ) (j : ℕ)
      (out : ℕ × ℚ × List Agent × ℕ),
      stepAgentsGo rc fc temp pol us done rest nA tE j = some out →
      ∃ rest', out.2.2.1 = done ++ rest' ∧
        out.2.1 = tE + (rest'.map Agent.annual_emissions).sum ∧
        List.Forall₂ (fun a b => ∃ flags j₀ b₀ j₁,
          a.decide_adoption flags rc fc temp pol us j₀ = some (b₀, b, j₁))
          rest rest' := by
  intro rest
  induction rest with
  | nil =>
    intro done nA tE j out h
    simp only [stepAgentsGo, Option.some.injEq] at h
    exact ⟨[], by simp [← h], by simp [← h], List.Forall₂.nil⟩
  | cons a rest ih =>
    intro done nA tE j out h
    simp only [stepAgentsGo, Option.bind_eq_bind, Option.bind_eq_some] at h
    obtain ⟨r, hr, hrec⟩ := h
    obtain ⟨rest', hagents, htot, hrel⟩ := ih (done ++ [r.2.1]) _ _ _ out hrec
    refine ⟨r.2.1 :: rest', ?_, ?_, ?_⟩
    · simpa using hagents
    · rw [htot]; simp [add_assoc]
    · exact List.Forall₂.cons ⟨_, j, r.1, r.2.2, by simpa using hr⟩ hrel

/-- The agent `probeAgent` after its adoption: flag latched, energy cost
`0/10 = 0`, emissions reduced to `20 × 0.1 = 2`. -/
def probeAdopted : Agent :=
  { probeAgent with
    has_renewables := true
    energy_cost := 0
    annual_emissions := 2 }

/-- The quadruple `ClimateModel.step probeModel 0 80 (fun _ => 0) 0` returns. -/
def probeResult : StepResult :=
  { new_adoptions := 1
    adoption_rate := 1
    temperature := 1 + (3 / 2000000 : ℚ) * 2
    total_emissions := 2 }

/-- The model state after that step. -/
def probeFinal : ClimateModel :=
  { agents := [probeAdopted]
    temperature := 1 + (3 / 2000000 : ℚ) * 2
    year := 2025
    cumulative_emissions := 2
    carbon_price := 0 }

lemma probe_step_eq :
    ClimateModel.step probeModel 0 80 (fun _ => 0) 0 =
      some (probeResult, probeFinal, 1) := by
  norm_num [ClimateModel.step, ClimateModel.calculate_carbon_price, probeModel,
    stepAgentsGo, Agent.decide_adoption, probeAgent, pydiv, Option.bind,
    probeResult, probeFinal, probeAdopted]

/-- C1 counterexample: in a one-agent model whose agent is certain to adopt
at this step (probability clamp is `1/10`, draw is `0`), the step that
performs the adoption already returns `total_emissions = 2`, the
post-adoption value `20 × 0.1` — not the pre-decision `20`.  The
factor-of-10 reduction therefore appears in the `total_emissions` of step t
itself, contradicting the claim that it first appears at step t+1. -/
theorem step_tally_cex :
    (ClimateModel.step probeModel 0 80 (fun _ => 0) 0).map
      (fun r => (r.1.new_adoptions, r.1.total_emissions)) = some (1, 2) ∧
    (2 : ℚ) ≠ 20 := by
  constructor
  · rw [probe_step_eq]; norm_num [probeResult]
  · norm_num

/-- C1 (amended): the per-agent emissions tally in `ClimateModel.step` uses
the state each agent has *after* its own adoption decision within the same
step: the returned `total_emissions` equals the sum of the end-of-step
agents' `annual_emissions`, so an agent adopting at step t contributes its
reduced emissions to the `total_emissions` returned at step t itself. -/
theorem step_total_emissions_post_decision (m : ClimateModel) (rc fc : ℚ)
    (us : ℕ → ℚ) (j : ℕ) (r : StepResult) (m' : ClimateModel) (j' : ℕ)
    (h : m.step rc fc us j = some (r, m', j')) :
    r.total_emissions = (m'.agents.map Agent.annual_emissions).sum := by
  simp only [ClimateModel.step, Option.bind_eq_bind, Option.bind_eq_some] at h
  obtain ⟨o, ho, h2⟩ := h
  obtain ⟨ar, har, h3⟩ := h2
  obtain ⟨rest', hag, htot, -⟩ :=
    stepAgentsGo_spec _ _ _ _ _ _ _ _ _ _ _ ho
  simp only [Option.some.injEq, Prod.mk.injEq] at h3
  obtain ⟨hr, hm, -⟩ := h3
  rw [← hr, ← hm]
  show o.2.1 = (List.map Agent.annual_emissions o.2.2.1).sum
  rw [hag, htot]
  simp

theorem step_total_emissions_post_decision_witness :
    ClimateModel.step probeModel 0 80 (fun _ => 0) 0 =
      some (probeResult, probeFinal, 1) ∧
    probeResult.total_emissions =
      (probeFinal.agents.map Agent.annual_emissions).sum :=
  ⟨probe_step_eq,
    step_total_emissions_post_decision probeModel 0 80 (fun _ => 0) 0
      probeResult probeFinal 1 probe_step_eq⟩

/-- C7: after every successful `step`, the temperature equals exactly
`1 + 0.0000015 × cumulative_emissions` — it is recomputed from the updated
cumulative emissions (which grow by exactly this step's `total_emissions`),
not incremented; and whenever the pre-step state satisfies the same law
(as the initial state does) and the step's `total_emissions` is ≥ 0, the
temperature does not decrease across the step. -/
theorem step_temperature_law (m : ClimateModel) (rc fc : ℚ) (us : ℕ → ℚ)
    (j : ℕ) (r : StepResult) (m' : ClimateModel) (j' : ℕ)
    (h : m.step rc fc us j = some (r, m', j')) :
    m'.temperature = 1 + (3 / 2000000 : ℚ) * m'.cumulative_emissions ∧
    r.temperature = m'.temperature ∧
    m'.cumulative_emissions = m.cumulative_emissions + r.total_emissions ∧
    (m.temperature = 1 + (3 / 2000000 : ℚ) * m.cumulative_emissions →
      0 ≤ r.total_emissions → m.temperature ≤ m'.temperature) := by
  simp only [ClimateModel.step, Option.bind_eq_bind, Option.bind_eq_some] at h
  obtain ⟨o, ho, h2⟩ := h
  obtain ⟨ar, har, h3⟩ := h2
  simp only [Option.some.injEq, Prod.mk.injEq] at h3
  obtain ⟨hr, hm, -⟩ := h3
  subst hr
  subst hm
  refine ⟨rfl, rfl, rfl, ?_⟩
  intro hlaw htot
  simp only [ClimateModel.calculate_carbon_price]
  rw [hlaw]
  nlinarith [htot]

theorem step_temperature_law_witness :
    ClimateModel.step probeModel 0 80 (fun _ => 0) 0 =
      some (probeResult, probeFinal, 1) ∧
    probeFinal.temperature =
      1 + (3 / 2000000 : ℚ) * probeFinal.cumulative_emissions ∧
    probeModel.temperature ≤ probeFinal.temperature := by
  have h := step_temperature_law probeModel 0 80 (fun _ => 0) 0
    probeResult probeFinal 1 probe_step_eq
  exact ⟨probe_step_eq, h.1,
    h.2.2.2 (by norm_num [probeModel]) (by norm_num [probeResult])⟩

/-- A fixed household draw for concrete instantiations. -/
def dummyHD : HouseholdDraw := { center := 0, dx := 0, dy := 0, wealth := 0, awareness := 0 }

/-- A fixed firm draw for concrete instantiations. -/
def dummyFD : FirmDraw := { x := 0, y := 0, wealth := 0, awareness := 0 }

/-- C6 counterexample: constructing a `ClimateModel` with a zero population
succeeds without any error — no configuration check is performed at
construction — and the subsequent `step` *does* reach the adoption-rate
division, which raises `ZeroDivisionError` (modelled `none`).  This
contradicts both "reported immediately at construction" and "never reaches
the adoption-rate division inside step". -/
theorem zero_population_cex :
    ClimateModel.init 0 0 (fun _ => dummyHD) (fun _ => dummyFD) =
      some emptyModel ∧
    ClimateModel.step emptyModel 100 80 (fun _ => 0) 0 = none := by
  constructor
  · rfl
  · simp [ClimateModel.step, ClimateModel.calculate_carbon_price, emptyModel,
      stepAgentsGo, pydiv, Option.bind]

/-- C6 (amended): a zero population size is not reported at construction:
`ClimateModel.init 0 0` always succeeds and returns the empty-population
model; the zero-size population then reaches the adoption-rate division in
every `step`, which fails loudly with a division-by-zero error (`none`,
modelling Python's `ZeroDivisionError`) rather than silently producing NaN. -/
theorem zero_population_behaviour (hd : ℕ → HouseholdDraw)
    (fd : ℕ → FirmDraw) (rc fc : ℚ) (us : ℕ → ℚ) (j : ℕ) :
    ClimateModel.init 0 0 hd fd = some emptyModel ∧
    ClimateModel.step emptyModel rc fc us j = none := by
  constructor
  · rfl
  · simp [ClimateModel.step, ClimateModel.calculate_carbon_price, emptyModel,
      stepAgentsGo, pydiv, Option.bind]

/-- The reachable per-agent state: an agent that has not adopted carries its
kind-dependent baseline emissions (20 or 200); an agent that has adopted
carries at least 2 (the baseline times 0.1, applied exactly once). -/
def AgentInv (a : Agent) : Prop :=
  (a.has_renewables = false ∧
    (a.annual_emissions = 20 ∨ a.annual_emissions = 200)) ∨
  (a.has_renewables = true ∧ 2 ≤ a.annual_emissions)

lemma agentInv_two_le {a : Agent} (h : AgentInv a) : 2 ≤ a.annual_emissions := by
  rcases h with ⟨-, h | h⟩ | ⟨-, h⟩ <;> first | (rw [h]; norm_num) | exact h

lemma agentInv_neighbors {a : Agent} (ns : List ℕ) (h : AgentInv a) :
    AgentInv { a with neighbors := ns } := by
  rcases h with ⟨h1, h2⟩ | ⟨h1, h2⟩
  · exact Or.inl ⟨h1, h2⟩
  · exact Or.inr ⟨h1, h2⟩

lemma decide_adoption_inv {a : Agent} {flags : List Bool}
    {rc fc temp pol : ℚ} {us : ℕ → ℚ} {j : ℕ} {b : Bool} {a' : Agent} {j' : ℕ}
    (h : a.decide_adoption flags rc fc temp pol us j = some (b, a', j'))
    (hinv : AgentInv a) : AgentInv a' := by
  simp only [Agent.decide_adoption] at h
  split at h
  · simp only [Option.some.injEq, Prod.mk.injEq] at h
    rw [← h.2.1]; exact hinv
  · next hlatch =>
    split at h
    · simp at h
    · split at h <;> split at h <;>
        (simp only [Option.some.injEq, Prod.mk.injEq] at h
         obtain ⟨hb, ha', hj⟩ := h
         rw [← ha'])
      all_goals (first
        | exact hinv
        | (rcases hinv with ⟨-, hbase | hbase⟩ | ⟨htrue, -⟩ <;>
            first
              | (exact absurd htrue hlatch)
              | (refine Or.inr ⟨rfl, ?_⟩
                 show (2 : ℚ) ≤ a.annual_emissions * (1 / 10)
                 rw [hbase]
                 norm_num)))

lemma forall2_exists_left {α β : Type} {R : α → β → Prop} :
    ∀ {l : List α} {l' : List β}, List.Forall₂ R l l' →
      ∀ b ∈ l', ∃ a ∈ l, R a b := by
  intro l l' h
  induction h with
  | nil => simp
  | cons hR hrel ih =>
    intro b hb
    rcases List.mem_cons.mp hb with rfl | hb
    · exact ⟨_, List.mem_cons_self _ _, hR⟩
    · obtain ⟨a, ha, hab⟩ := ih b hb
      exact ⟨a, List.mem_cons_of_mem _ ha, hab⟩

lemma sum_pos_of_two_le {l : List ℚ} (hne : l ≠ [])
    (h : ∀ x ∈ l, (2 : ℚ) ≤ x) : 0 < l.sum := by
  cases l with
  | nil => exact absurd rfl hne
  | cons x xs =>
    have hx : (2 : ℚ) ≤ x := h x (List.mem_cons_self _ _)
    have hxs : 0 ≤ xs.sum :=
      List.sum_nonneg (fun y hy =>
        le_trans (by norm_num) (h y (List.mem_cons_of_mem _ hy)))
    simp only [List.sum_cons]
    linarith

lemma establishGo_inv (agents : List Agent) :
    ∀ (ps : List (ℕ × Agent)) (out : List Agent),
      establishGo agents ps = some out →
      (∀ p ∈ ps, AgentInv p.2) → ∀ b ∈ out, AgentInv b := by
  intro ps
  induction ps with
  | nil =>
    intro out h _ b hb
    simp only [establishGo, Option.some.injEq] at h
    rw [← h] at hb
    simp at hb
  | cons p ps ih =>
    intro out h hall b hb
    simp only [establishGo, Option.bind_eq_bind, Option.bind_eq_some] at h
    obtain ⟨ns, -, rest, hrest, hout⟩ := h
    simp only [Option.some.injEq] at hout
    rw [← hout] at hb
    rcases List.mem_cons.mp hb with rfl | hb
    · exact agentInv_neighbors ns (hall p (List.mem_cons_self _ _))
    · exact ih rest hrest (fun q hq => hall q (List.mem_cons_of_mem _ hq)) b hb

/-- C10: every agent built by `init` satisfies the emissions invariant, and
a `step` from any invariant-satisfying state with a non-empty population
preserves the invariant, keeps every agent's `annual_emissions` ≥ 2 (hence
strictly positive), returns `total_emissions > 0`, and strictly increases
`cumulative_emissions` — so the spec's monotonicity side condition
`total_emissions ≥ 0` holds unconditionally. -/
theorem emissions_positive_invariant :
    (∀ (nh nf : ℕ) (hd : ℕ → HouseholdDraw) (fd : ℕ → FirmDraw)
        (m : ClimateModel),
      ClimateModel.init nh nf hd fd = some m → ∀ a ∈ m.agents, AgentInv a) ∧
    (∀ (m : ClimateModel) (rc fc : ℚ) (us : ℕ → ℚ) (j : ℕ) (r : StepResult)
        (m' : ClimateModel) (j' : ℕ),
      (∀ a ∈ m.agents, AgentInv a) → m.agents ≠ [] →
      m.step rc fc us j = some (r, m', j') →
      (∀ a ∈ m'.agents, AgentInv a) ∧
      (∀ a ∈ m'.agents, 2 ≤ a.annual_emissions) ∧
      0 < r.total_emissions ∧
      m.cumulative_emissions < m'.cumulative_emissions) := by
  constructor
  · intro nh nf hd fd m h a ha
    simp only [ClimateModel.init, establishNeighborNetworks,
      Option.bind_eq_bind, Option.bind_eq_some] at h
    obtain ⟨agents, hgo, hm⟩ := h
    simp only [Option.some.injEq] at hm
    rw [← hm] at ha
    refine establishGo_inv _ _ agents hgo ?_ a ha
    intro p hp
    have hp2 := List.snd_mem_of_mem_enum hp
    rcases List.mem_append.mp hp2 with hh | hf
    · obtain ⟨i, -, hi⟩ := List.mem_map.mp hh
      rw [← hi]
      exact Or.inl ⟨rfl, Or.inl rfl⟩
    · obtain ⟨i, -, hi⟩ := List.mem_map.mp hf
      rw [← hi]
      exact Or.inl ⟨rfl, Or.inr rfl⟩
  · intro m rc fc us j r m' j' hinv hne h
    simp only [ClimateModel.step, Option.bind_eq_bind, Option.bind_eq_some] at h
    obtain ⟨o, ho, h2⟩ := h
    obtain ⟨ar, har, h3⟩ := h2
    obtain ⟨rest', hag, htot, hrel⟩ :=
      stepAgentsGo_spec _ _ _ _ _ _ _ _ _ _ _ ho
    simp only [Option.some.injEq, Prod.mk.injEq] at h3
    obtain ⟨hr, hm, -⟩ := h3
    simp only [List.nil_append] at hag
    have hinv' : ∀ b ∈ rest', AgentInv b := by
      intro b hb
      obtain ⟨a, ha, flags, j₀, b₀, j₁, hdec⟩ := forall2_exists_left hrel b hb
      exact decide_adoption_inv hdec (hinv a ha)
    have h2le : ∀ b ∈ rest', 2 ≤ b.annual_emissions :=
      fun b hb => agentInv_two_le (hinv' b hb)
    have hne' : rest' ≠ [] := by
      intro hcon
      have := hrel.length_eq
      rw [hcon] at this
      simp at this
      exact hne this
    have hpos : 0 < o.2.1 := by
      rw [htot]
      have : 0 < (rest'.map Agent.annual_emissions).sum := by
        refine sum_pos_of_two_le ?_ ?_
        · simpa using hne'
        · intro x hx
          obtain ⟨b, hb, hbx⟩ := List.mem_map.mp hx
          rw [← hbx]
          exact h2le b hb
      linarith
    refine ⟨?_, ?_, ?_, ?_⟩
    · intro a ha
      rw [← hm] at ha
      have : a ∈ rest' := by
        have : m'.agents = rest' := by rw [← hm, hag]
        rw [← hm] at this
        simpa [hag] using ha
      exact hinv' a this
    · intro a ha
      rw [← hm] at ha
      simp only at ha
      rw [hag] at ha
      exact h2le a ha
    · rw [← hr]
      exact hpos
    · rw [← hm]
      simp only [ClimateModel.calculate_carbon_price]
      linarith

theorem emissions_positive_invariant_witness :
    (∀ a ∈ probeModel.agents, AgentInv a) ∧ probeModel.agents ≠ [] ∧
    (0 < probeResult.total_emissions ∧
      probeModel.cumulative_emissions < probeFinal.cumulative_emissions) := by
  have h1 : ∀ a ∈ probeModel.agents, AgentInv a := by
    intro a ha
    simp only [probeModel, List.mem_singleton] at ha
    subst ha
    exact Or.inl ⟨rfl, Or.inl rfl⟩
  have h2 : probeModel.agents ≠ [] := by simp [probeModel]
  have h := emissions_positive_invariant.2 probeModel 0 80 (fun _ => 0) 0
    probeResult probeFinal 1 h1 h2 probe_step_eq
  exact ⟨h1, h2, h.2.2.1, h.2.2.2⟩

/-- A third agent placed so that `wA` sees two others at equal distance. -/
def tieAgent : Agent := { probeAgent with id := 2, location := (-1, 0) }

/-- Agents at pairwise-distinct distances for concrete instantiations. -/
def wA : Agent := { probeAgent with id := 0, location := (0, 0) }

def wB : Agent := { probeAgent with id := 1, location := (1, 0) }

def wC : Agent := { probeAgent with id := 2, location := (3, 0) }

/-- C5 counterexample: with agents at (0,0), (1,0) and (-1,0), the first
agent's two distances are both 1; Python's `sorted` then compares the two
`(1.0, Agent)` tuples, falls through to comparing the `Agent` objects and
raises `TypeError`.  `_establish_neighbor_networks` therefore does not
terminate normally for every assignment of locations, and ties are not
broken by creation order — they crash. -/
theorem neighbor_tie_cex : establishNeighborNetworks [wA, wB, tieAgent] = none := by
  norm_num [establishNeighborNetworks, establishGo, neighborsFor, distPairs,
    pySort, pyInsert, pyPairLt, sqDist, List.enum, List.enumFrom,
    wA, wB, tieAgent, probeAgent, Option.bind]

lemma pyInsert_spec (x : ℚ × ℕ) :
    ∀ (t : List (ℚ × ℕ)), t.Pairwise (fun p q => p.1 < q.1) →
      (∀ q ∈ t, x.1 ≠ q.1) →
      ∃ t', pyInsert x t = some t' ∧ t'.Perm (x :: t) ∧
        t'.Pairwise (fun p q => p.1 < q.1) := by
  intro t
  induction t with
  | nil =>
    intro _ _
    exact ⟨[x], rfl, List.Perm.refl _, List.pairwise_singleton _ _⟩
  | cons y ys ih =>
    intro hsort hne
    have hxy : x.1 ≠ y.1 := hne y (List.mem_cons_self _ _)
    rcases lt_trichotomy x.1 y.1 with hlt | heq | hgt
    · refine ⟨x :: y :: ys, ?_, List.Perm.refl _, ?_⟩
      · simp [pyInsert, pyPairLt, hlt, Option.bind]
      · refine List.Pairwise.cons ?_ hsort
        intro q hq
        rcases List.mem_cons.mp hq with rfl | hq
        · exact hlt
        · exact lt_trans hlt (List.rel_of_pairwise_cons hsort hq)
    · exact absurd heq hxy
    · obtain ⟨t', ht', hperm, hsort'⟩ :=
        ih hsort.of_cons (fun q hq => hne q (List.mem_cons_of_mem _ hq))
      refine ⟨y :: t', ?_, ?_, ?_⟩
      · simp [pyInsert, pyPairLt, lt_asymm hgt, hgt, Option.bind, ht']
      · exact (hperm.cons y).trans (List.Perm.swap x y ys)
      · refine List.Pairwise.cons ?_ hsort'
        intro q hq
        rcases List.mem_cons.mp (hperm.subset hq) with rfl | hq'
        · exact hgt
        · exact List.rel_of_pairwise_cons hsort hq'

lemma pySort_spec :
    ∀ (l : List (ℚ × ℕ)), l.Pairwise (fun p q => p.1 ≠ q.1) →
      ∃ l', pySort l = some l' ∧ l'.Perm l ∧
        l'.Pairwise (fun p q => p.1 < q.1) := by
  intro l
  induction l with
  | nil => exact fun _ => ⟨[], rfl, List.Perm.refl _, List.Pairwise.nil⟩
  | cons x xs ih =>
    intro hpw
    obtain ⟨t, ht, hperm, hsort⟩ := ih hpw.of_cons
    obtain ⟨t', ht', hperm', hsort'⟩ := pyInsert_spec x t hsort
      (fun q hq => List.rel_of_pairwise_cons hpw (hperm.subset hq))
    refine ⟨t', ?_, ?_, hsort'⟩
    · simp [pySort, ht, ht', Option.bind]
    · exact hperm'.trans (hperm.cons x)

lemma establishGo_sorted (agents : List Agent) :
    ∀ (ps : List (ℕ × Agent)),
      (∀ p ∈ ps, (distPairs agents p.1 p.2).Pairwise (fun u v => u.1 ≠ v.1)) →
      ∃ out, establishGo agents ps = some out ∧
        List.Forall₂ (fun p b => ∃ l' : List (ℚ × ℕ),
          l'.Perm (distPairs agents p.1 p.2) ∧
          l'.Pairwise (fun u v => u.1 < v.1) ∧
          b = { p.2 with neighbors := (l'.take 10).map Prod.snd }) ps out := by
  intro ps
  induction ps with
  | nil => exact fun _ => ⟨[], rfl, List.Forall₂.nil⟩
  | cons p ps ih =>
    intro hall
    obtain ⟨l', hs, hperm, hpw⟩ :=
      pySort_spec (distPairs agents p.1 p.2) (hall p (List.mem_cons_self _ _))
    obtain ⟨out, hout, hrel⟩ := ih (fun q hq => hall q (List.mem_cons_of_mem _ hq))
    refine ⟨{ p.2 with neighbors := (l'.take 10).map Prod.snd } :: out, ?_,
      List.Forall₂.cons ⟨l', hperm, hpw, rfl⟩ hrel⟩
    simp [establishGo, neighborsFor, hs, hout, Option.bind]

lemma forall2_imp_mem {α β : Type} {R S : α → β → Prop} :
    ∀ {l : List α} {l' : List β}, List.Forall₂ R l l' →
      (∀ a b, a ∈ l → R a b → S a b) → List.Forall₂ S l l' := by
  intro l l' h
  induction h with
  | nil => exact fun _ => List.Forall₂.nil
  | cons hR hrel ih =>
    intro himp
    exact List.Forall₂.cons (himp _ _ (List.mem_cons_self _ _) hR)
      (ih (fun a b ha => himp a b (List.mem_cons_of_mem _ ha)))

lemma distPairs_length_lt (agents : List Agent) (p : ℕ × Agent)
    (hp : p ∈ agents.enum) :
    (distPairs agents p.1 p.2).length < agents.length := by
  have h1 : ((agents.enum.filter (fun q => q.1 ≠ p.1)).length < agents.enum.length) := by
    rw [← List.countP_eq_length_filter]
    refine lt_of_le_of_ne (List.countP_le_length _) ?_
    intro hcon
    have := List.countP_eq_length.mp hcon p hp
    simp at this
  calc (distPairs agents p.1 p.2).length
      = (agents.enum.filter (fun q => q.1 ≠ p.1)).length := by
        simp [distPairs]
    _ < agents.enum.length := h1
    _ = agents.length := List.enum_length

/-- C5 (amended): whenever, for each agent, the distances to the other
agents are pairwise distinct, `_establish_neighbor_networks` terminates
normally and gives each agent as neighbours the first 10 other agents in
strictly ascending order of (squared) Euclidean distance; for populations
of 11 or fewer agents the neighbour list is a permutation of all the other
agents.  When two other agents lie at exactly the same distance the sort
instead raises `TypeError` (see the counterexample), so the original
claim's unconditional termination and creation-order tie-breaking fail. -/
theorem establish_neighbor_networks_sorted (agents : List Agent)
    (h : ∀ p ∈ agents.enum,
      (distPairs agents p.1 p.2).Pairwise (fun u v => u.1 ≠ v.1)) :
    ∃ out, establishNeighborNetworks agents = some out ∧
      List.Forall₂ (fun p b => ∃ l' : List (ℚ × ℕ),
        l'.Perm (distPairs agents p.1 p.2) ∧
        l'.Pairwise (fun u v => u.1 < v.1) ∧
        b = { p.2 with neighbors := (l'.take 10).map Prod.snd } ∧
        (agents.length ≤ 11 →
          b.neighbors.Perm ((distPairs agents p.1 p.2).map Prod.snd)))
      agents.enum out := by
  obtain ⟨out, hout, hrel⟩ := establishGo_sorted agents agents.enum h
  refine ⟨out, hout, forall2_imp_mem hrel ?_⟩
  intro p b hp hpb
  obtain ⟨l', hperm, hpw, hb⟩ := hpb
  refine ⟨l', hperm, hpw, hb, ?_⟩
  intro hle
  have hlen : l'.length ≤ 10 := by
    have h1 := distPairs_length_lt agents p hp
    have h2 := hperm.length_eq
    omega
  have htake : l'.take 10 = l' := List.take_of_length_le hlen
  rw [hb]
  show ((l'.take 10).map Prod.snd).Perm _
  rw [htake]
  exact hperm.map Prod.snd

theorem establish_neighbor_networks_sorted_witness :
    (∀ p ∈ ([wA, wB, wC] : List Agent).enum,
      (distPairs [wA, wB, wC] p.1 p.2).Pairwise (fun u v => u.1 ≠ v.1)) ∧
    (∃ out, establishNeighborNetworks [wA, wB, wC] = some out ∧
      List.Forall₂ (fun p b => ∃ l' : List (ℚ × ℕ),
        l'.Perm (distPairs [wA, wB, wC] p.1 p.2) ∧
        l'.Pairwise (fun u v => u.1 < v.1) ∧
        b = { p.2 with neighbors := (l'.take 10).map Prod.snd } ∧
        (([wA, wB, wC] : List Agent).length ≤ 11 →
          b.neighbors.Perm ((distPairs [wA, wB, wC] p.1 p.2).map Prod.snd)))
      ([wA, wB, wC] : List Agent).enum out) := by
  have hd : ∀ p ∈ ([wA, wB, wC] : List Agent).enum,
      (distPairs [wA, wB, wC] p.1 p.2).Pairwise (fun u v => u.1 ≠ v.1) := by
    intro p hp
    simp only [List.enum, List.enumFrom, List.mem_cons,
      List.not_mem_nil, or_false] at hp
    rcases hp with rfl | rfl | rfl
    · norm_num [distPairs, sqDist, List.enum, List.enumFrom, wA, wB, wC,
        probeAgent, List.pairwise_cons]
    · norm_num [distPairs, sqDist, List.enum, List.enumFrom, wA, wB, wC,
        probeAgent, List.pairwise_cons]
    · norm_num [distPairs, sqDist, List.enum, List.enumFrom, wA, wB, wC,
        probeAgent, List.pairwise_cons]
  exact ⟨hd, establish_neighbor_networks_sorted [wA, wB, wC] hd⟩

lemma npMean_single (r : List ℚ) (t : ℕ) : npMeanAxis0 [r] t = r.getD t 0 := by
  simp [npMeanAxis0, col]

lemma npVar_single (r : List ℚ) (t : ℕ) : npVarAxis0 [r] t = 0 := by
  simp [npVarAxis0, col, npMeanAxis0]

lemma npStd_single (r : List ℚ) (t : ℕ) : npStdAxis0 [r] t = 0 := by
  rw [npStdAxis0, npVar_single]
  simp

/-- C9: for a Monte Carlo run with a single trial, the per-year cross-trial
mean of each of the four output series (temperature, adoption rate,
emissions, carbon price) equals the single trial's recorded series exactly,
and the per-year cross-trial standard deviation is 0 at every year. -/
theorem monte_carlo_single_run (temps adopts emis prices : List ℚ) (t : ℕ) :
    (npMeanAxis0 [temps] t = temps.getD t 0 ∧ npStdAxis0 [temps] t = 0) ∧
    (npMeanAxis0 [adopts] t = adopts.getD t 0 ∧ npStdAxis0 [adopts] t = 0) ∧
    (npMeanAxis0 [emis] t = emis.getD t 0 ∧ npStdAxis0 [emis] t = 0) ∧
    (npMeanAxis0 [prices] t = prices.getD t 0 ∧ npStdAxis0 [prices] t = 0) :=
  ⟨⟨npMean_single _ _, npStd_single _ _⟩, ⟨npMean_single _ _, npStd_single _ _⟩,
    ⟨npMean_single _ _, npStd_single _ _⟩, ⟨npMean_single _ _, npStd_single _ _⟩⟩

/-- C8: the reported lower emissions band is `np.clip(mean − 2·std, 0, None)`
and the adoption-rate band is `np.clip(mean ± 2·std, 0, 1)`; for every
aggregation input the reported lower emissions band is ≥ 0 and the adoption
bands lie in [0, 1], even though the raw band `mean − 2·std` can be
negative, as the two-trial input `[[0], [10]]` shows (raw −5, reported 0).
The clamping lives only in these reporting definitions; the simulation's
series (`ClimateModel.step`) are produced without any clamping. -/
theorem reported_bands_clamped :
    (∀ (rows : List (List ℚ)) (t : ℕ),
      0 ≤ emisLowerBand rows t ∧
      0 ≤ adoptLowerBand rows t ∧ adoptLowerBand rows t ≤ 1 ∧
      0 ≤ adoptUpperBand rows t ∧ adoptUpperBand rows t ≤ 1) ∧
    rawLowerBand [[0], [10]] 0 < 0 ∧ emisLowerBand [[0], [10]] 0 = 0 := by
  have hm : npMeanAxis0 [[0], [10]] 0 = 5 := by norm_num [npMeanAxis0, col]
  have hv : npVarAxis0 [[0], [10]] 0 = 25 := by
    norm_num [npVarAxis0, npMeanAxis0, col]
  have hs : npStdAxis0 [[0], [10]] 0 = 5 := by
    rw [npStdAxis0, hv, show ((25 : ℚ) : ℝ) = (5 : ℝ) ^ 2 by norm_num]
    exact Real.sqrt_sq (by norm_num)
  have hraw : rawLowerBand [[0], [10]] 0 = -5 := by
    rw [rawLowerBand, hs, hm]
    norm_num
  refine ⟨?_, ?_, ?_⟩
  · intro rows t
    exact ⟨le_max_left _ _,
      le_min zero_le_one (le_max_left _ _), min_le_left _ _,
      le_min zero_le_one (le_max_left _ _), min_le_left _ _⟩
  · rw [hraw]
    norm_num
  · simp only [emisLowerBand, npClip0]
    rw [hraw]
    exact max_eq_left (by norm_num)
